import Mathlib

/-!
Verification of the `what` CLI (entity classification and bounded terminal
presentation) against its specification.

The development shallowly embeds the Python sources:
* `src/what_cli/entities/preview.py` — the preview truncator (`Preview.__rich_console__`);
* `src/what_cli/matcher.py` — the entity resolver;
* `src/what_cli/entities/file.py` — the `FileFactory` classification ladder;
* `src/what_cli/entities/entity.py` — the layout decision in `Entity.__rich_console__`;
* `src/what_cli/what.py` — the CLI driver (`handle_args`, `run`).

Python strings are embedded as `List Char`; rich `Segment` values as `Seg`
(text, style, control), with styles and controls kept abstract as `Option Nat`
since the core never inspects them.  OS and library collaborators (psutil,
pwd, libmagic, pygments, the filesystem) are a record of oracle functions
`Sys`, as the spec treats them: external interfaces supplying raw values.
-/

namespace WhatCli

/-- A rich `Segment`: text, an optional style object, an optional control code.
Styles and controls are opaque to the truncation algorithm, so they are
embedded as `Option Nat` tokens. -/
structure Seg where
  text : List Char
  style : Option Nat
  control : Option Nat
deriving DecidableEq, Repr

/-- Python `text.split("\n")` on a character list: the list of parts between
newline characters, keeping empty parts (`"".split("\n") == [""]`). -/
def splitOnNl : List Char → List (List Char)
  | [] => [[]]
  | c :: cs =>
    if c = '\n' then [] :: splitOnNl cs
    else
      match splitOnNl cs with
      | [] => [[c]]
      | p :: ps => (c :: p) :: ps

/-- `if part: current_line.append(Segment(part, segment.style, segment.control))`:
the (possibly empty) list of segments a split-off part contributes, carrying
the originating segment's style and control. -/
def partSegs (p : List Char) (seg : Seg) : List Seg :=
  if p = [] then [] else [{ seg with text := p }]

/-- The loop body run for each split part after the first: close the current
logical line into `lines`, then start a new current line holding the part
(if non-empty) with the original segment's style.  In the Python source the
middle-part loop and the final-part handling perform exactly this same step. -/
def closeParts (lines : List (List Seg)) (current : List Seg) :
    List (List Char) → Seg → List (List Seg) × List Seg
  | [], _ => (lines, current)
  | p :: ps, seg => closeParts (lines ++ [current]) (partSegs p seg) ps seg

/-- The segment loop of `Preview.__rich_console__`: group the segment stream
into logical lines, splitting any segment whose (non-empty) text contains a
line break and giving every split-off portion the original style. -/
def splitSegs : List Seg → List (List Seg) → List Seg → List (List Seg)
  | [], lines, current =>
    -- `if current_line: lines.append(current_line)`
    if current = [] then lines else lines ++ [current]
  | seg :: rest, lines, current =>
    if seg.text ≠ [] ∧ '\n' ∈ seg.text then
      match splitOnNl seg.text with
      | [] => splitSegs rest lines current  -- unreachable: split is never empty
      | p0 :: ps =>
        let cur0 := current ++ partSegs p0 seg
        let st := closeParts lines cur0 ps seg
        splitSegs rest st.1 st.2
    else
      splitSegs rest lines (current ++ [seg])

/-- Reconstruct the logical lines of a rendered segment stream
(`lines` after the grouping loop of `Preview.__rich_console__`). -/
def splitLines (segs : List Seg) : List (List Seg) :=
  splitSegs segs [] []

/-- An entry of the `truncated_lines` list right before yielding: either a
reconstructed line (a list of segments) or the indicator renderable that
replaced a line, carrying its `remaining_lines` count. -/
inductive Entry where
  | line (l : List Seg)
  | ind (n : Nat)
deriving DecidableEq, Repr

/-- One yielded value: a plain segment, or the indicator table (left-aligned
ellipsis, right-aligned dimmed label) carrying its line count. -/
inductive Item where
  | seg (s : Seg)
  | ind (n : Nat)
deriving DecidableEq, Repr

/-- The dimmed right-hand label text of the indicator: `f"+{n} lines"`. -/
def indicatorLabel (n : Nat) : String :=
  "+" ++ toString n ++ " lines"

/-- The bare newline segment `Segment("\n")` yielded between lines. -/
def newlineSeg : Seg := { text := ['\n'], style := none, control := none }

/-- The items one entry yields: a line yields its segments, the indicator
yields itself as a single renderable. -/
def entryItems : Entry → List Item
  | .line l => l.map Item.seg
  | .ind n => [Item.ind n]

/-- The yield loop: each entry's items, with a newline segment after every
entry except the last (`if i < len(truncated_lines) - 1`). -/
def yieldEntries : List Entry → List Item
  | [] => []
  | [e] => entryItems e
  | e :: e2 :: rest => entryItems e ++ Item.seg newlineSeg :: yieldEntries (e2 :: rest)

/-- `Preview.__rich_console__` for a stream of rendered segments and a
maximum height.  `none` models the `IndexError` raised by
`truncated_lines[-1] = indicator` when `truncated_lines` is empty
(`max_height = 1` with more than one line); otherwise the yielded items. -/
def previewRender (segs : List Seg) (maxHeight : Nat) : Option (List Item) :=
  let lines := splitLines segs
  if lines.length > maxHeight then
    -- truncated_lines = lines[: self.max_height - 1]
    let truncated := lines.take (maxHeight - 1)
    -- remaining_lines = len(lines) - len(truncated_lines)
    let remaining := lines.length - truncated.length
    -- truncated_lines[-1] = indicator
    if truncated = [] then none
    else some (yieldEntries (truncated.dropLast.map Entry.line ++ [Entry.ind remaining]))
  else
    some (yieldEntries (lines.map Entry.line))

/-- The verbatim emission the spec describes for the under-budget case: the
reconstructed lines' segments, joined by single newline segments, with no
indicator and no trailing break. -/
def verbatimJoin (ls : List (List Seg)) : List Item :=
  (List.intersperse [Item.seg newlineSeg] (ls.map (fun l => l.map Item.seg))).flatten

/-! ### Collaborators (psutil, pwd, libmagic, pygments, os.path)

The spec's §6 external interfaces, embedded as a record of oracle functions.
Every entry corresponds to one collaborator call the core makes. -/

/-- A process as enumerated by `psutil.process_iter(attrs=["pid", "name"])`. -/
structure Proc where
  pid : Int
  name : String
deriving DecidableEq, Repr

/-- The OS/library collaborators.  Functions of the query value only, since
the core performs a single synchronous pass. -/
structure Sys where
  /-- `psutil.pid_exists` -/
  pid_exists : Int → Bool
  /-- `psutil.process_iter` in iteration order -/
  processes : List Proc
  /-- `os.path.abspath` -/
  abspath : String → String
  /-- `os.path.isfile` -/
  isfile : String → Bool
  /-- `os.path.isdir` -/
  isdir : String → Bool
  /-- `pwd.getpwnam` succeeding (no `KeyError`) -/
  getpwnam : String → Bool
  /-- `Path.is_symlink` -/
  is_symlink : String → Bool
  /-- `Path.is_dir` -/
  path_is_dir : String → Bool
  /-- `magic.from_file(path, mime=True)` -/
  mime : String → String
  /-- `Path.read_text()`: `none` models a raised decoding error -/
  read_text : String → Option (List Char)
  /-- `pygments.lexers.guess_lexer` on a sample: `none` models `ClassNotFound`,
  `some nm` a lexer whose `.name` is `nm` -/
  guess_lexer : List Char → Option String

/-! ### File classification — `FileFactory` (`entities/file.py`) -/

/-- The concrete `File` subtypes the factory can choose. -/
inductive FileKind where
  | symlink | directory | video | audio | image | text | code | regular
deriving DecidableEq, Repr

/-- Python `s.startswith(pre)`. -/
def pyStartswith (s pre : String) : Bool :=
  pre.data.isPrefixOf s.data

/-- `FileFactory.is_video_file` -/
def is_video_file (_path : String) (mime : String) : Bool :=
  pyStartswith mime "video/"

/-- `FileFactory.is_audio_file` -/
def is_audio_file (_path : String) (mime : String) : Bool :=
  pyStartswith mime "audio/"

/-- `FileFactory.is_image_file` -/
def is_image_file (_path : String) (mime : String) : Bool :=
  pyStartswith mime "image/"

/-- `FileFactory.is_plain_text_file` -/
def is_plain_text_file (_path : String) (mime : String) : Bool :=
  mime == "text/plain"

/-- `CodeFile.get_language`: guess a lexer on the first `80 * 10` characters
of the file's text; its name if one is found. -/
def get_language (sys : Sys) (path : String) : Option String :=
  match sys.read_text path with
  | none => none  -- the read raised; surfaces as an exception
  | some txt =>
    match sys.guess_lexer (txt.take (80 * 10)) with
    | none => none  -- guess_lexer raised ClassNotFound
    | some nm => some nm

/-- `CodeFile.match`: `bool(cls.get_language(path))`, with every exception
(unreadable file, no lexer) caught and turned into `False`.  An empty lexer
name is falsy in Python. -/
def code_file_match (sys : Sys) (path : String) : Bool :=
  match get_language sys path with
  | none => false
  | some nm => nm ≠ ""

/-- `FileFactory.match_special_file` -/
def match_special_file (sys : Sys) (path : String) : Option FileKind :=
  if sys.is_symlink path then some FileKind.symlink
  else if sys.path_is_dir path then some FileKind.directory
  else none

/-- `FileFactory.match_regular_file` -/
def match_regular_file (sys : Sys) (path : String) : FileKind :=
  let mime := sys.mime path
  if is_video_file path mime then FileKind.video
  else if is_audio_file path mime then FileKind.audio
  else if is_image_file path mime then FileKind.image
  else if is_plain_text_file path mime then FileKind.text
  else if code_file_match sys path then FileKind.code
  else FileKind.regular

/-- `FileFactory.from_path` -/
def fileFactory_from_path (sys : Sys) (path : String) : FileKind :=
  match match_special_file sys path with
  | some k => k
  | none => match_regular_file sys path

/-- The spec's view of classification (§4.2): an ordered ladder of predicates,
each paired with the subtype it selects. -/
def classificationLadder (sys : Sys) (path : String) : List (Bool × FileKind) :=
  [ (sys.is_symlink path, FileKind.symlink),
    (sys.path_is_dir path, FileKind.directory),
    (is_video_file path (sys.mime path), FileKind.video),
    (is_audio_file path (sys.mime path), FileKind.audio),
    (is_image_file path (sys.mime path), FileKind.image),
    (is_plain_text_file path (sys.mime path), FileKind.text),
    (code_file_match sys path, FileKind.code) ]

/-- The first ladder entry whose predicate holds, else the generic regular
file.  This follows the spec's words for §4.2, to be compared with
`fileFactory_from_path`. -/
def ladderFirst : List (Bool × FileKind) → FileKind
  | [] => FileKind.regular
  | (b, k) :: rest => if b then k else ladderFirst rest

/-! ### Namespaces and the CLI argument parser (`what.py`) -/

/-- A Python value stored as an argparse namespace attribute. -/
inductive PyVal where
  | bool (b : Bool)
  | strs (l : List String)
deriving DecidableEq, Repr

/-- Python truthiness of an attribute value. -/
def pyTruthy : PyVal → Bool
  | .bool b => b
  | .strs l => !l.isEmpty

/-- An argparse `Namespace`: a finite attribute map. -/
structure Namespace where
  attrs : List (String × PyVal)
deriving DecidableEq, Repr

/-- `getattr(ns, a)`: `none` models a raised `AttributeError`. -/
def pyGetattr (ns : Namespace) (a : String) : Option PyVal :=
  ns.attrs.lookup a

/-- `handle_args`: the parser defines exactly the attributes `name` (one or
more positionals), `--headers` and `--debug` (the `version` action exits and
stores nothing).  No `no_preview` attribute is ever defined. -/
def handle_args (names : List String) (headers debug : Bool) : Namespace :=
  ⟨[("name", PyVal.strs names), ("headers", PyVal.bool headers),
    ("debug", PyVal.bool debug)]⟩

/-! ### Entity resolver — `matcher.py` -/

/-- Resolved entity kinds as the matcher constructs them. -/
inductive EKindTag where
  | file | process | user
deriving DecidableEq, Repr

/-- A process handle: `psutil.Process(pid)` built in `find_process_by_pid`,
or an element of the `process_iter` scan in `find_process_by_name`. -/
inductive PHandle where
  | byPid (pid : Int)
  | byIter (p : Proc)
deriving DecidableEq, Repr

/-- The payload of a resolved entity. -/
inductive EKind where
  | file (k : FileKind)
  | process (p : PHandle)
  | user (username : String)
deriving DecidableEq, Repr

/-- An `Entity` as far as the resolver is concerned: its kind and the `args`
dataclass field, which every construction site leaves at its default `None`. -/
structure MEntity where
  kind : EKind
  args : Option Namespace
deriving DecidableEq, Repr

/-- Digits-to-number accumulator for `int(str)`. -/
def digitsToNat : List Char → Nat → Nat
  | [], acc => acc
  | c :: cs, acc => digitsToNat cs (acc * 10 + (c.toNat - '0'.toNat))

/-- A non-empty all-digit run parsed to a natural number. -/
def parseDigits (cs : List Char) : Option Nat :=
  if cs ≠ [] ∧ cs.all Char.isDigit then some (digitsToNat cs 0) else none

/-- Python `int(name)` on the grammar the core exercises: an optional sign
followed by decimal digits (`ValueError` otherwise, modelled as `none`). -/
def pyParseInt (s : String) : Option Int :=
  match s.data with
  | '+' :: rest => (parseDigits rest).map Int.ofNat
  | '-' :: rest => (parseDigits rest).map (fun n => -(n : Int))
  | ds => (parseDigits ds).map Int.ofNat

/-- `is_int`: whether `int(name)` succeeds. -/
def is_int (name : String) : Bool :=
  (pyParseInt name).isSome

/-- `user_exists` -/
def user_exists (sys : Sys) (username : String) : Bool :=
  sys.getpwnam username

/-- `find_process_by_pid`: a live-PID check on integral queries. -/
def find_process_by_pid (sys : Sys) (name : String) : Option PHandle :=
  match pyParseInt name with
  | some pid => if sys.pid_exists pid then some (PHandle.byPid pid) else none
  | none => none

/-- `find_process_by_name`: first enumerated process with the given name. -/
def find_process_by_name (sys : Sys) (name : String) : Option PHandle :=
  (sys.processes.find? (fun p => p.name == name)).map PHandle.byIter

/-- `match_process`: for an integral query, the PID check *only* (an early
`return`); otherwise the name scan. -/
def match_process (sys : Sys) (name : String) : Option PHandle :=
  if is_int name then find_process_by_pid sys name
  else find_process_by_name sys name

/-- `match_file`: absolutise, then classify through `FileFactory.from_path`
when the path is an existing file or directory. -/
def match_file (sys : Sys) (name : String) : Option MEntity :=
  let abs_path := sys.abspath name
  if sys.isfile abs_path || sys.isdir abs_path then
    some ⟨EKind.file (fileFactory_from_path sys abs_path), none⟩
  else none

/-- `match`: the `if/elif` resolver cascade of `matcher.py`.  Every entity is
constructed without an `args` argument, so its `args` field keeps the
dataclass default `None`. -/
def matchEntity (sys : Sys) (name : String) : Except String MEntity :=
  match match_file sys name with
  | some f => Except.ok f
  | none =>
    match match_process sys name with
    | some p => Except.ok ⟨EKind.process p, none⟩
    | none =>
      if user_exists sys name then Except.ok ⟨EKind.user name, none⟩
      else Except.error ("No match found for " ++ name)

/-- The `File` kind's classification test as the resolver consumes it. -/
def fileTest (sys : Sys) (q : String) : Option MEntity :=
  match_file sys q

/-- The `Process` kind's classification test as the resolver consumes it. -/
def processTest (sys : Sys) (q : String) : Option MEntity :=
  (match_process sys q).map (fun p => ⟨EKind.process p, none⟩)

/-- The `User` kind's classification test as the resolver consumes it. -/
def userTest (sys : Sys) (q : String) : Option MEntity :=
  if user_exists sys q then some ⟨EKind.user q, none⟩ else none

/-- The spec's resolver algorithm (§4.1): iterate an ordered list of kinds,
invoke each kind's classification test, return the first non-null result;
also report the list of kinds whose test was invoked. -/
def resolveKinds (q : String) :
    List (EKindTag × (String → Option MEntity)) → Except String MEntity × List EKindTag
  | [] => (Except.error ("No match found for " ++ q), [])
  | (k, t) :: rest =>
    match t q with
    | some e => (Except.ok e, [k])
    | none =>
      let r := resolveKinds q rest
      (r.1, k :: r.2)

/-- The fixed kind order the resolver uses: File, then Process, then User. -/
def kindOrder (sys : Sys) : List (EKindTag × (String → Option MEntity)) :=
  [(EKindTag.file, fileTest sys), (EKindTag.process, processTest sys),
   (EKindTag.user, userTest sys)]

/-! ### Layout composition — `Entity.__rich_console__` (`entities/entity.py`) -/

/-- `MIN_CONTENT_WIDTH` -/
def MIN_CONTENT_WIDTH : Nat := 60

/-- `MIN_PREVIEW_WIDTH` -/
def MIN_PREVIEW_WIDTH : Nat := 40

/-- `Entity._measure_height`: one plus the number of newline characters in
the rendered segments' non-empty texts. -/
def measure_height (segs : List Seg) : Nat :=
  1 + (segs.map (fun s => if s.text ≠ [] then s.text.count '\n' else 0)).sum

/-- Python exceptions the render path can raise. -/
inductive PyErr where
  | attributeError
deriving DecidableEq, Repr

/-- The layout `Entity.__rich_console__` commits to: whether a side-by-side
preview column is built, and if so the height bound handed to `Preview`. -/
structure Layout where
  sideBySide : Bool
  previewMaxHeight : Option Nat
deriving DecidableEq, Repr

/-- `Entity.__rich_console__`, up to the point where the panel is emitted:
reads `self.args.no_preview` unconditionally (an `AttributeError` when `args`
is `None` or lacks the attribute), compares the width against
`MIN_CONTENT_WIDTH + MIN_PREVIEW_WIDTH` with a strict `>`, and on the
side-by-side path bounds the preview to the measured content height. -/
def rich_console : Option Namespace → Bool → List Seg → Nat → Except PyErr Layout
  | none, _, _, _ =>
    Except.error PyErr.attributeError  -- None has no attribute no_preview
  | some ns, providesPreview, contentSegs, maxWidth =>
    match pyGetattr ns "no_preview" with
    | none => Except.error PyErr.attributeError  -- Namespace lacks no_preview
    | some v =>
      let room_for_preview := decide (MIN_CONTENT_WIDTH + MIN_PREVIEW_WIDTH < maxWidth)
      let preview_on := !pyTruthy v
      let preview_available := preview_on && room_for_preview && providesPreview
      if preview_available then
        Except.ok ⟨true, some (measure_height contentSegs)⟩
      else
        Except.ok ⟨false, none⟩

/-! ### CLI driver — `run` (`what.py`) -/

/-- Failures `run` itself raises: its `except` block calls
`Formatter.format`, a name never imported in `what.py`, so any caught
exception resurfaces as a `NameError`. -/
inductive RunErr where
  | nameErrorFormatter
deriving DecidableEq, Repr

/-- `run`: parse arguments, resolve `args.name[0]` — only the first name —
display its entity and return exit code 0.  Any exception lands in the
`except` block, whose first statement dereferences the undefined
`Formatter`.  The result pairs the exit code with the list of displayed
entities. -/
def run (sys : Sys) (names : List String) (_headers _debug : Bool) :
    Except RunErr (Nat × List MEntity) :=
  match (pyGetattr (handle_args names _headers _debug) "name") with
  | some (PyVal.strs parsedNames) =>
    match parsedNames.head? with
    | none => Except.error RunErr.nameErrorFormatter  -- IndexError, then NameError
    | some name =>
      match matchEntity sys name with
      | Except.ok entity => Except.ok (0, [entity])
      | Except.error _ => Except.error RunErr.nameErrorFormatter
  | _ => Except.error RunErr.nameErrorFormatter

/-! ### Concrete collaborator environments used in counterexamples -/

/-- A machine with no matching files or users, a dead PID space, and a single
running process whose *name* is the numeric string `"123"`. -/
def sysNumericNameProc : Sys where
  pid_exists := fun _ => false
  processes := [⟨7, "123"⟩]
  abspath := fun s => s
  isfile := fun _ => false
  isdir := fun _ => false
  getpwnam := fun _ => false
  is_symlink := fun _ => false
  path_is_dir := fun _ => false
  mime := fun _ => ""
  read_text := fun _ => none
  guess_lexer := fun _ => none

/-- A machine on which both `"a"` and `"b"` are plain-text files. -/
def sysAB : Sys where
  pid_exists := fun _ => false
  processes := []
  abspath := fun s => s
  isfile := fun s => s == "a" || s == "b"
  isdir := fun _ => false
  getpwnam := fun _ => false
  is_symlink := fun _ => false
  path_is_dir := fun _ => false
  mime := fun _ => "text/plain"
  read_text := fun _ => none
  guess_lexer := fun _ => none

/-- A machine on which only `"a"` is a plain-text file and `"b"` matches
nothing. -/
def sysAOnly : Sys where
  pid_exists := fun _ => false
  processes := []
  abspath := fun s => s
  isfile := fun s => s == "a"
  isdir := fun _ => false
  getpwnam := fun _ => false
  is_symlink := fun _ => false
  path_is_dir := fun _ => false
  mime := fun _ => "text/plain"
  read_text := fun _ => none
  guess_lexer := fun _ => none

/-- A machine on which every query is a known user account and nothing else. -/
def sysUserOnly : Sys where
  pid_exists := fun _ => false
  processes := []
  abspath := fun s => s
  isfile := fun _ => false
  isdir := fun _ => false
  getpwnam := fun _ => true
  is_symlink := fun _ => false
  path_is_dir := fun _ => false
  mime := fun _ => ""
  read_text := fun _ => none
  guess_lexer := fun _ => none

/-! ## Helper lemmas -/

theorem yieldEntries_map_line :
    (ls : List (List Seg)) → yieldEntries (ls.map Entry.line) = verbatimJoin ls
  | [] => by simp [yieldEntries, verbatimJoin]
  | [l] => by simp [yieldEntries, verbatimJoin, entryItems]
  | l :: l2 :: rest => by
    have ih := yieldEntries_map_line (l2 :: rest)
    simp only [List.map_cons] at ih ⊢
    simp only [yieldEntries, entryItems, verbatimJoin, List.map_cons,
      List.intersperse_cons_cons, List.flatten_cons] at ih ⊢
    rw [ih]
    simp

theorem splitOnNl_no_nl (t : List Char) (h : '\n' ∉ t) : splitOnNl t = [t] := by
  induction t with
  | nil => rfl
  | cons c cs ih =>
    have hc : ¬(c = '\n') := fun e => h (e ▸ List.mem_cons_self c cs)
    have hcs : '\n' ∉ cs := fun m => h (List.mem_cons_of_mem _ m)
    simp [splitOnNl, hc, ih hcs]

theorem splitOnNl_append_nl (t1 t2 : List Char) (h1 : '\n' ∉ t1) (h2 : '\n' ∉ t2) :
    splitOnNl (t1 ++ '\n' :: t2) = [t1, t2] := by
  induction t1 with
  | nil => simp [splitOnNl, splitOnNl_no_nl t2 h2]
  | cons c cs ih =>
    have hc : ¬(c = '\n') := fun e => h1 (e ▸ List.mem_cons_self c cs)
    have hcs : '\n' ∉ cs := fun m => h1 (List.mem_cons_of_mem _ m)
    simp [splitOnNl, hc, ih hcs]

theorem partSegs_style (p : List Char) (seg : Seg) (s : Seg) (h : s ∈ partSegs p seg) :
    s.style = seg.style ∧ s.control = seg.control := by
  unfold partSegs at h
  split at h
  · simp at h
  · simp at h
    subst h
    exact ⟨rfl, rfl⟩

theorem closeParts_style (segs0 : List Seg) (seg : Seg)
    (hseg : ∃ s0 ∈ segs0, seg.style = s0.style ∧ seg.control = s0.control) :
    ∀ (ps : List (List Char)) (lines : List (List Seg)) (current : List Seg),
    (∀ l ∈ lines, ∀ s ∈ l, ∃ s0 ∈ segs0, s.style = s0.style ∧ s.control = s0.control) →
    (∀ s ∈ current, ∃ s0 ∈ segs0, s.style = s0.style ∧ s.control = s0.control) →
    (∀ l ∈ (closeParts lines current ps seg).1, ∀ s ∈ l,
        ∃ s0 ∈ segs0, s.style = s0.style ∧ s.control = s0.control) ∧
    (∀ s ∈ (closeParts lines current ps seg).2,
        ∃ s0 ∈ segs0, s.style = s0.style ∧ s.control = s0.control) := by
  intro ps
  induction ps with
  | nil =>
    intro lines current hl hc
    exact ⟨hl, hc⟩
  | cons p ps ih =>
    intro lines current hl hc
    refine ih (lines ++ [current]) (partSegs p seg) ?_ ?_
    · intro l hmem s hs
      rcases List.mem_append.mp hmem with h | h
      · exact hl l h s hs
      · have : l = current := by simpa using h
        exact hc s (this ▸ hs)
    · intro s hs
      obtain ⟨e1, e2⟩ := partSegs_style p seg s hs
      obtain ⟨s0, hs0, e3, e4⟩ := hseg
      exact ⟨s0, hs0, e1.trans e3, e2.trans e4⟩

theorem splitSegs_style (segs0 : List Seg) :
    ∀ (rest : List Seg) (lines : List (List Seg)) (current : List Seg),
    (∀ seg ∈ rest, ∃ s0 ∈ segs0, seg.style = s0.style ∧ seg.control = s0.control) →
    (∀ l ∈ lines, ∀ s ∈ l, ∃ s0 ∈ segs0, s.style = s0.style ∧ s.control = s0.control) →
    (∀ s ∈ current, ∃ s0 ∈ segs0, s.style = s0.style ∧ s.control = s0.control) →
    ∀ l ∈ splitSegs rest lines current, ∀ s ∈ l,
      ∃ s0 ∈ segs0, s.style = s0.style ∧ s.control = s0.control := by
  intro rest
  induction rest with
  | nil =>
    intro lines current _ hl hc l hmem s hs
    unfold splitSegs at hmem
    split at hmem
    · exact hl l hmem s hs
    · rcases List.mem_append.mp hmem with h | h
      · exact hl l h s hs
      · have : l = current := by simpa using h
        exact hc s (this ▸ hs)
  | cons seg rest ih =>
    intro lines current hr hl hc l hmem s hs
    have hseg : ∃ s0 ∈ segs0, seg.style = s0.style ∧ seg.control = s0.control :=
      hr seg (List.mem_cons_self _ _)
    have hrest : ∀ sg ∈ rest, ∃ s0 ∈ segs0, sg.style = s0.style ∧ sg.control = s0.control :=
      fun sg h => hr sg (List.mem_cons_of_mem _ h)
    unfold splitSegs at hmem
    split at hmem
    · rename_i hcond
      cases hsplit : splitOnNl seg.text with
      | nil =>
        rw [hsplit] at hmem
        exact ih lines current hrest hl hc l hmem s hs
      | cons p0 ps =>
        rw [hsplit] at hmem
        simp only [] at hmem
        have hcur0 : ∀ s ∈ current ++ partSegs p0 seg,
            ∃ s0 ∈ segs0, s.style = s0.style ∧ s.control = s0.control := by
          intro s hsm
          rcases List.mem_append.mp hsm with h | h
          · exact hc s h
          · obtain ⟨e1, e2⟩ := partSegs_style p0 seg s h
            obtain ⟨s0, hs0, e3, e4⟩ := hseg
            exact ⟨s0, hs0, e1.trans e3, e2.trans e4⟩
        obtain ⟨hl2, hc2⟩ := closeParts_style segs0 seg hseg ps lines
          (current ++ partSegs p0 seg) hl hcur0
        exact ih _ _ hrest hl2 hc2 l hmem s hs
    · have hcur : ∀ s ∈ current ++ [seg],
          ∃ s0 ∈ segs0, s.style = s0.style ∧ s.control = s0.control := by
        intro s hsm
        rcases List.mem_append.mp hsm with h | h
        · exact hc s h
        · have : s = seg := by simpa using h
          exact this ▸ hseg
      exact ih lines (current ++ [seg]) hrest hl hcur l hmem s hs

/-! ## Claims about the preview truncator -/

/-- Claim C1: the spec says an over-budget preview renders exactly
`max_height` lines — the first `max_height - 1` unchanged and an indicator
last.  The code slices `lines[: max_height - 1]` (its own comment says "Take
exactly max_height lines") and then replaces the last kept line by the
indicator, so at 3 reconstructed lines and `max_height = 2` the output is the
indicator alone: one line instead of two, and the kept line `"a"` is gone.
The indicator count 2 does equal `total_lines - (max_height - 1)`. -/
theorem preview_over_budget_drops_kept_line :
    (splitLines [⟨['a', '\n', 'b', '\n', 'c'], some 1, none⟩]).length = 3 ∧
    previewRender [⟨['a', '\n', 'b', '\n', 'c'], some 1, none⟩] 2 =
      some [Item.ind 2] ∧
    indicatorLabel 2 = "+2 lines" := by
  refine ⟨by decide, by decide, ?_⟩
  rfl

/-- Claim C2: whenever the reconstructed line count is within the budget
(`max_height ≥ 1`), the truncator emits every reconstructed line verbatim,
joined by single line breaks, with no indicator and no other alteration. -/
theorem preview_identity_under_budget (segs : List Seg) (mh : Nat)
    (_hmh : 1 ≤ mh) (hle : (splitLines segs).length ≤ mh) :
    previewRender segs mh = some (verbatimJoin (splitLines segs)) := by
  unfold previewRender
  simp only []
  rw [if_neg (by omega)]
  exact congrArg some (yieldEntries_map_line _)

/-- Witness for C2 at a concrete two-line styled input with budget 2. -/
theorem preview_identity_under_budget_witness :
    previewRender [⟨['a', '\n', 'b'], some 1, none⟩] 2 =
      some (verbatimJoin (splitLines [⟨['a', '\n', 'b'], some 1, none⟩])) :=
  preview_identity_under_budget [⟨['a', '\n', 'b'], some 1, none⟩] 2
    (by decide) (by decide)

/-- Claim C3: a segment whose text contains a line break is split at the
break into separate segments on consecutive reconstructed lines, each part
keeping the original segment's style (and control); and in general every
segment of every reconstructed line takes its style and control from some
input segment. -/
theorem preview_split_preserves_style :
    (∀ (t1 t2 : List Char) (st ct : Option Nat), t1 ≠ [] → t2 ≠ [] →
      '\n' ∉ t1 → '\n' ∉ t2 →
      splitLines [⟨t1 ++ '\n' :: t2, st, ct⟩] = [[⟨t1, st, ct⟩], [⟨t2, st, ct⟩]]) ∧
    (∀ (segs : List Seg), ∀ l ∈ splitLines segs, ∀ s ∈ l,
      ∃ s0 ∈ segs, s.style = s0.style ∧ s.control = s0.control) := by
  constructor
  · intro t1 t2 st ct h1 h2 hn1 hn2
    have hne : t1 ++ '\n' :: t2 ≠ [] := by simp
    have hmem : '\n' ∈ t1 ++ '\n' :: t2 := List.mem_append.mpr (Or.inr (List.mem_cons_self _ _))
    unfold splitLines splitSegs
    rw [if_pos ⟨hne, hmem⟩]
    rw [show (⟨t1 ++ '\n' :: t2, st, ct⟩ : Seg).text = t1 ++ '\n' :: t2 from rfl,
      splitOnNl_append_nl t1 t2 hn1 hn2]
    simp only [partSegs, if_neg h1, if_neg h2, closeParts, List.nil_append]
    unfold splitSegs
    simp

  · intro segs l hl s hs
    exact splitSegs_style segs segs [] []
      (fun seg h => ⟨seg, h, rfl, rfl⟩)
      (fun l h => absurd h (List.not_mem_nil l))
      (fun s h => absurd h (List.not_mem_nil s))
      l hl s hs

/-- Witness for C3: the spec's own example, `"abc\ndef"` with style S. -/
theorem preview_split_preserves_style_witness :
    splitLines [⟨['a', 'b', 'c', '\n', 'd', 'e', 'f'], some 7, none⟩] =
      [[⟨['a', 'b', 'c'], some 7, none⟩], [⟨['d', 'e', 'f'], some 7, none⟩]] :=
  preview_split_preserves_style.1 ['a', 'b', 'c'] ['d', 'e', 'f'] (some 7) none
    (by decide) (by decide) (by decide) (by decide)

/-- Claim C4: the spec's edge case demands `max_height = 1` still emit a
usable indicator row, but the code slices `lines[:0] = []` and then performs
`truncated_lines[-1] = indicator` on the empty list, raising `IndexError`
(modelled as `none`) for every renderable with more than one line. -/
theorem preview_max_height_one_crashes :
    (splitLines [⟨['a', '\n', 'b'], some 1, none⟩]).length = 2 ∧
    previewRender [⟨['a', '\n', 'b'], some 1, none⟩] 1 = none := by
  decide

/-! ## Claims about the entity resolver -/

/-- Claim C5: the resolver tries the kinds in the fixed order File, Process,
User and returns the first kind's successful result; once a kind's
classification test succeeds, no subsequent kind's test is invoked.  Part
one: the `if/elif` cascade of `matcher.py` computes exactly the spec's
ordered first-match resolution over `[File, Process, User]`.  Part two: for
the spec's resolution procedure, whenever all kinds before some kind fail
and that kind succeeds, the result is that kind's entity and the invoked
tests are exactly the kinds up to and including it — none after. -/
theorem resolver_first_kind_wins :
    (∀ (sys : Sys) (q : String),
      matchEntity sys q = (resolveKinds q (kindOrder sys)).1) ∧
    (∀ (q : String) (pre : List (EKindTag × (String → Option MEntity)))
        (k : EKindTag) (t : String → Option MEntity)
        (post : List (EKindTag × (String → Option MEntity))) (e : MEntity),
      (∀ kt ∈ pre, kt.2 q = none) → t q = some e →
      resolveKinds q (pre ++ (k, t) :: post) =
        (Except.ok e, pre.map Prod.fst ++ [k])) := by
  constructor
  · intro sys q
    cases hf : match_file sys q with
    | some f =>
      simp [matchEntity, kindOrder, resolveKinds, fileTest, hf]
    | none =>
      cases hp : match_process sys q with
      | some p =>
        simp [matchEntity, kindOrder, resolveKinds, fileTest, processTest, hf, hp]
      | none =>
        cases hu : user_exists sys q <;>
          simp [matchEntity, kindOrder, resolveKinds, fileTest, processTest,
            userTest, hf, hp, hu]
  · intro q pre k t post e hpre ht
    induction pre with
    | nil => simp [resolveKinds, ht]
    | cons kt pre ih =>
      obtain ⟨k2, t2⟩ := kt
      have hkt : t2 q = none := hpre (k2, t2) (List.mem_cons_self _ _)
      have ih2 := ih (fun kt2 h => hpre kt2 (List.mem_cons_of_mem _ h))
      simp only [List.cons_append, resolveKinds, hkt, List.map_cons]
      simp only [List.append_eq, ih2]

/-- Witness for C5's short-circuit part: with a failing File test, a
succeeding Process test, and a User test standing by, resolution stops at
Process and the User test is never invoked. -/
theorem resolver_first_kind_wins_witness :
    resolveKinds "test"
      [(EKindTag.file, fun _ => none),
       (EKindTag.process, fun _ => some ⟨EKind.user "u", none⟩),
       (EKindTag.user, fun _ => none)] =
      (Except.ok ⟨EKind.user "u", none⟩, [EKindTag.file, EKindTag.process]) :=
  resolver_first_kind_wins.2 "test" [(EKindTag.file, fun _ => none)]
    EKindTag.process (fun _ => some ⟨EKind.user "u", none⟩)
    [(EKindTag.user, fun _ => none)] ⟨EKind.user "u", none⟩
    (by
      intro kt h
      rw [List.mem_singleton] at h
      subst h
      rfl)
    rfl

/-- Counterexample to claim C6: on a machine where PID 123 is dead but a
process *named* `"123"` is running (and `"123"` is neither a file nor a
user), the claim says the resolver still tests the query as a process name —
which would succeed — and fails only when all three checks fail.  The code's
`match_process` instead returns as soon as `is_int` holds, so resolution
fails even though the process-name check would have succeeded. -/
theorem resolver_numeric_skips_name_check_counterexample :
    is_int "123" = true ∧
    sysNumericNameProc.pid_exists 123 = false ∧
    find_process_by_name sysNumericNameProc "123" =
      some (PHandle.byIter ⟨7, "123"⟩) ∧
    sysNumericNameProc.getpwnam "123" = false ∧
    matchEntity sysNumericNameProc "123" =
      Except.error ("No match found for " ++ "123") := by
  refine ⟨rfl, rfl, rfl, rfl, rfl⟩

/-- Claim C6 as amended: for a query that parses as an integer and is
neither an existing file/directory path nor a live PID, the resolver never
consults the process-name scan — its result does not depend on the process
list at all — and it goes straight to the username check: it resolves to a
user when that check succeeds and fails with the no-match error when it
fails.  So failure needs only the live-PID and username checks to fail. -/
theorem resolver_numeric_falls_to_user_only (sys : Sys) (q : String) (n : Int)
    (hint : pyParseInt q = some n)
    (hfile : sys.isfile (sys.abspath q) = false)
    (hdir : sys.isdir (sys.abspath q) = false)
    (hpid : sys.pid_exists n = false) :
    (matchEntity sys q =
      if sys.getpwnam q then Except.ok ⟨EKind.user q, none⟩
      else Except.error ("No match found for " ++ q)) ∧
    (∀ procs : List Proc,
      matchEntity { sys with processes := procs } q = matchEntity sys q) := by
  have hisint : is_int q = true := by simp [is_int, hint]
  have hmf : ∀ procs : List Proc,
      match_file { sys with processes := procs } q = none := by
    intro procs
    simp [match_file, hfile, hdir]
  have hmp : ∀ procs : List Proc,
      match_process { sys with processes := procs } q = none := by
    intro procs
    simp [match_process, hisint, find_process_by_pid, hint, hpid]
  have hmain : ∀ procs : List Proc,
      matchEntity { sys with processes := procs } q =
        if sys.getpwnam q then Except.ok ⟨EKind.user q, none⟩
        else Except.error ("No match found for " ++ q) := by
    intro procs
    unfold matchEntity
    rw [hmf procs, hmp procs]
    rfl
  have hself : matchEntity sys q =
      if sys.getpwnam q then Except.ok ⟨EKind.user q, none⟩
      else Except.error ("No match found for " ++ q) := by
    have := hmain sys.processes
    simpa using this
  exact ⟨hself, fun procs => (hmain procs).trans hself.symm⟩

/-- Witness for the amended C6 at the concrete machine of the
counterexample: PID 123 is dead, no user `"123"` exists, so resolution of
`"123"` fails — without consulting the process list. -/
theorem resolver_numeric_falls_to_user_only_witness :
    matchEntity sysNumericNameProc "123" =
      if sysNumericNameProc.getpwnam "123" then
        Except.ok ⟨EKind.user "123", none⟩
      else Except.error ("No match found for " ++ "123") :=
  (resolver_numeric_falls_to_user_only sysNumericNameProc "123" 123
    rfl rfl rfl rfl).1

/-! ## Claim about file classification -/

/-- Claim C7: `FileFactory` assigns every resolved path exactly one concrete
`File` subtype, and it is the one selected by the spec's ladder evaluated in
the exact order symlink, directory, video MIME, audio MIME, image MIME,
exactly `text/plain`, language-lexer match on the first 800 characters,
generic regular file: the factory equals first-match resolution over that
ordered predicate ladder (with the regular file as the fall-through), for
every collaborator environment and path. -/
theorem file_classification_follows_ladder (sys : Sys) (path : String) :
    fileFactory_from_path sys path = ladderFirst (classificationLadder sys path) := by
  unfold fileFactory_from_path match_special_file match_regular_file classificationLadder
  cases h1 : sys.is_symlink path with
  | true => simp [ladderFirst]
  | false =>
    cases h2 : sys.path_is_dir path with
    | true => simp [ladderFirst]
    | false => simp [ladderFirst]

/-! ## Claim about the layout decision -/

/-- Claim C8: side-by-side layout needs the available width to be *strictly*
greater than `MIN_CONTENT_WIDTH + MIN_PREVIEW_WIDTH` (60 + 40): at exactly
the sum it is not selected; one unit above it is selected whenever the
entity provides a preview and `no_preview` is falsy, and the preview is then
bounded to the measured height of the rendered content; and in general a
side-by-side layout certifies the strict width inequality. -/
theorem layout_strict_width_threshold (ns : Namespace) (v : PyVal)
    (pp : Bool) (segs : List Seg)
    (hv : pyGetattr ns "no_preview" = some v) :
    (rich_console (some ns) pp segs (MIN_CONTENT_WIDTH + MIN_PREVIEW_WIDTH) =
      Except.ok ⟨false, none⟩) ∧
    (pyTruthy v = false → pp = true →
      rich_console (some ns) pp segs (MIN_CONTENT_WIDTH + MIN_PREVIEW_WIDTH + 1) =
        Except.ok ⟨true, some (measure_height segs)⟩) ∧
    (∀ (w : Nat) (l : Layout),
      rich_console (some ns) pp segs w = Except.ok l → l.sideBySide = true →
      MIN_CONTENT_WIDTH + MIN_PREVIEW_WIDTH < w) := by
  refine ⟨?_, ?_, ?_⟩
  · have hd : decide (MIN_CONTENT_WIDTH + MIN_PREVIEW_WIDTH <
        MIN_CONTENT_WIDTH + MIN_PREVIEW_WIDTH) = false :=
      decide_eq_false (by omega)
    simp [rich_console, hv, hd]
  · intro hnp hpp
    have hd : decide (MIN_CONTENT_WIDTH + MIN_PREVIEW_WIDTH <
        MIN_CONTENT_WIDTH + MIN_PREVIEW_WIDTH + 1) = true :=
      decide_eq_true (by omega)
    simp [rich_console, hv, hd, hnp, hpp]
  · intro w l hok hside
    by_cases hw : MIN_CONTENT_WIDTH + MIN_PREVIEW_WIDTH < w
    · exact hw
    · have hd : decide (MIN_CONTENT_WIDTH + MIN_PREVIEW_WIDTH < w) = false :=
        decide_eq_false hw
      have hr : rich_console (some ns) pp segs w = Except.ok ⟨false, none⟩ := by
        simp [rich_console, hv, hd]
      rw [hr] at hok
      injection hok with hok2
      rw [← hok2] at hside
      simp at hside

/-- Witness for C8 at the boundary widths 100 and 101, with a namespace that
defines a falsy `no_preview` and an entity providing a preview of empty
rendered content. -/
theorem layout_strict_width_threshold_witness :
    rich_console (some ⟨[("no_preview", PyVal.bool false)]⟩) true [] 100 =
      Except.ok ⟨false, none⟩ ∧
    rich_console (some ⟨[("no_preview", PyVal.bool false)]⟩) true [] 101 =
      Except.ok ⟨true, some 1⟩ :=
  ⟨(layout_strict_width_threshold ⟨[("no_preview", PyVal.bool false)]⟩
      (PyVal.bool false) true [] rfl).1,
   (layout_strict_width_threshold ⟨[("no_preview", PyVal.bool false)]⟩
      (PyVal.bool false) true [] rfl).2.1 rfl rfl⟩

/-! ## Claim about the CLI driver -/

/-- Claim C9: the spec requires every name argument to be resolved and
rendered independently with a non-zero exit code if any fails, but `run`
resolves only `args.name[0]`.  On a machine where both `"a"` and `"b"` are
files, `what a b` displays only `"a"`'s entity and exits 0 although `"b"`
resolves; on a machine where `"b"` matches nothing, the run is byte-for-byte
the same — exit code 0, no error for `"b"` — because `"b"` is never
processed.  (With a failing *first* name, `run`'s `except` block itself
crashes: it calls `Formatter.format`, a name `what.py` never defines.) -/
theorem run_processes_only_first_name :
    run sysAB ["a", "b"] false false =
      Except.ok (0, [⟨EKind.file FileKind.text, none⟩]) ∧
    matchEntity sysAB "b" = Except.ok ⟨EKind.file FileKind.text, none⟩ ∧
    matchEntity sysAOnly "b" = Except.error ("No match found for " ++ "b") ∧
    run sysAOnly ["a", "b"] false false =
      Except.ok (0, [⟨EKind.file FileKind.text, none⟩]) ∧
    run sysAOnly ["b"] false false = Except.error RunErr.nameErrorFormatter := by
  refine ⟨rfl, rfl, rfl, rfl, rfl⟩

/-! ## Claim about rendering resolver-built entities -/

/-- Claim C10: every entity the resolver constructs keeps the dataclass
default `args = None`; `Entity.__rich_console__` dereferences
`self.args.no_preview` on every path regardless of width, so it raises
`AttributeError` whenever `args` is `None`; the CLI argument parser defines
no `no_preview` attribute at all; and a render can only succeed when `args`
is a non-`None` namespace that does expose `no_preview`. -/
theorem entity_args_none_render_crashes :
    (∀ (sys : Sys) (q : String) (e : MEntity),
      matchEntity sys q = Except.ok e → e.args = none) ∧
    (∀ (pp : Bool) (segs : List Seg) (w : Nat),
      rich_console none pp segs w = Except.error PyErr.attributeError) ∧
    (∀ (names : List String) (h d : Bool),
      pyGetattr (handle_args names h d) "no_preview" = none) ∧
    (∀ (ns : Namespace) (pp : Bool) (segs : List Seg) (w : Nat) (l : Layout),
      rich_console (some ns) pp segs w = Except.ok l →
      ∃ v, pyGetattr ns "no_preview" = some v) := by
  refine ⟨?_, ?_, ?_, ?_⟩
  · intro sys q e hok
    cases hf : match_file sys q with
    | some f =>
      simp [matchEntity, hf] at hok
      subst hok
      simp only [match_file] at hf
      split at hf
      · injection hf with h2
        rw [← h2]
      · exact absurd hf (by simp)
    | none =>
      cases hp : match_process sys q with
      | some p =>
        simp [matchEntity, hf, hp] at hok
        subst hok
        rfl
      | none =>
        cases hu : user_exists sys q with
        | true =>
          simp [matchEntity, hf, hp, hu] at hok
          subst hok
          rfl
        | false =>
          simp [matchEntity, hf, hp, hu] at hok
  · intro pp segs w
    rfl
  · intro names h d
    rfl
  · intro ns pp segs w l hok
    cases hg : pyGetattr ns "no_preview" with
    | none =>
      have hr : rich_console (some ns) pp segs w = Except.error PyErr.attributeError := by
        simp [rich_console, hg]
      rw [hr] at hok
      exact absurd hok (by simp)
    | some v => exact ⟨v, rfl⟩

/-- Witness for C10: the resolver on an all-users machine yields an entity
with `args = None`; rendering with `args = None` raises; the parsed CLI
namespace lacks `no_preview`. -/
theorem entity_args_none_render_crashes_witness :
    (⟨EKind.user "u", none⟩ : MEntity).args = none ∧
    rich_console none true [] 200 = Except.error PyErr.attributeError ∧
    pyGetattr (handle_args ["x"] false false) "no_preview" = none :=
  ⟨entity_args_none_render_crashes.1 sysUserOnly "u" ⟨EKind.user "u", none⟩ rfl,
   entity_args_none_render_crashes.2.1 true [] 200,
   entity_args_none_render_crashes.2.2.1 ["x"] false false⟩

end WhatCli
